import Mathlib

/-!
Verification model of the AMS-SPIT backend attendance ingestion engine.

The definitions below are a shallow embedding of the JavaScript source:
  * src/routes/attendance.js — the division-sheet upload path
    (processDivisionSheet, parseBatchInfo, the defaulter report banding,
    checkDefaulters, the upload-division-sheet route handler),
  * src/workers/allocationSyncWorker.js — the periodic allocation sync.

JavaScript numbers are modelled as rationals (Q); spreadsheet cells as a
three-way datatype (empty string, numeric string, non-numeric string),
which is exactly the case split parseFloat performs on the cell domain this
code reads.  Database collections are lists of records; mongoose
findOneAndUpdate with upsert is modelled as a first-match in-place update
with append on miss.  Wall-clock fields (updatedAt, createdAt*) are not
modelled; they are never read by the properties under study.
-/

/-- Subject kind, the `type` field of sheet subjects, attendance records and
allocations (source: `type: 'Theory' | 'Practical'`). -/
inductive SubjType where
  | Theory
  | Practical
deriving DecidableEq

/-- A spreadsheet cell as read by `parseFloat(row[col] || 0)`
(attendance.js line 1034): an empty string is coerced to 0 by `|| 0`,
a numeric string parses to its value, any other non-empty string parses
to NaN. -/
inductive SheetCell where
  | empty
  | num (q : ℚ)
  | other
deriving DecidableEq

/-- `parseFloat(cell || 0)`: `none` is NaN. -/
def cellToNum : SheetCell → Option ℚ
  | SheetCell.empty => some 0
  | SheetCell.num q => some q
  | SheetCell.other => none

/-- JavaScript `Math.round`: round half toward positive infinity. -/
def jsRound (q : ℚ) : ℤ := ⌊q + 1 / 2⌋

/-- A student row of the `students` collection as selected at
attendance.js line 982 (`_id studentId name batch division`); `uid` is the
`studentId` field, `batch` may be null. -/
structure StudentRec where
  id : ℕ
  uid : String
  batch : Option String
deriving DecidableEq

/-- One entry of `subjectMap` (attendance.js lines 955-961): a resolved
sheet subject.  `totalLectures` is null or a sheet number; `batchInfo` is
null or the mapping parsed from the sheet header.  NOTE: the source
mutates `totalLectures` of this shared object while processing student
rows (line 1043); the model threads the updated value through the state. -/
structure SubjectInfo where
  subjectId : ℕ
  type : SubjType
  totalLectures : Option ℕ
  batchInfo : Option (List (String × ℕ))
deriving DecidableEq

/-- An AttendanceSummary document (models/Attendance.js).  `period = none`
stands for both a null and an absent period field, which the upsert query
treats alike (attendance.js lines 1104-1112).  The same shape serves as a
write request, since `$set` carries exactly these payload fields. -/
structure AttRec where
  studentId : ℕ
  subjectId : ℕ
  type : SubjType
  period : Option String
  totalConducted : ℤ
  totalAttended : ℤ
  percentage : ℚ
  division : String
  batch : Option String
  recordedBy : ℕ
deriving DecidableEq

/-- The composite key `${subjectId}_${type}_${division}_${batchKey}` used
for the allocation accumulation maps (attendance.js line 1146), as a
structured tuple. -/
structure AllocKey where
  subjectId : ℕ
  type : SubjType
  division : String
  batchKey : String
deriving DecidableEq

/-- An Allocation document, restricted to the fields this path touches. -/
structure Allocation where
  subjectId : ℕ
  type : SubjType
  division : String
  batch : Option String
  totalPlanned : ℤ
  totalConducted : ℤ
deriving DecidableEq

/-- `subjectInfo.batchInfo[student.batch]` under JavaScript truthiness:
the lookup yields a usable value only when batchInfo is non-null, the
student batch is non-null, the key is present and the value is nonzero
(0 is falsy, so `batchInfo[batch] ? _ : _` and
`if (batchInfo && batchInfo[batch])` both reject it). -/
def lookupBatchTruthy (bi : Option (List (String × ℕ))) (b : Option String) : Option ℕ :=
  match bi, b with
  | some entries, some key =>
    match entries.lookup key with
    | some v => if v = 0 then none else some v
    | none => none
  | _, _ => none

/-- attendance.js lines 1063-1070: `totalClasses` before the safety floor.
The sheet total is used when non-null and nonzero; otherwise it is derived
from the percentage cell when positive, else from the attended value. -/
def derivedTotal (tl : Option ℕ) (a p : ℚ) : ℤ :=
  if tl = none ∨ tl = some 0 then
    (if 0 < p then jsRound (a / p * 100) else jsRound a)
  else ((tl.getD 0 : ℕ) : ℤ)

/-- attendance.js lines 1063-1075: `totalClasses` after the safety floor
`if (!totalClasses || totalClasses < attendedValue)
   totalClasses = Math.max(Math.round(attendedValue), Math.ceil(attendedValue * 1.2))`. -/
def computeTotalClasses (tl : Option ℕ) (a p : ℚ) : ℤ :=
  let t := derivedTotal tl a p
  if t = 0 ∨ (t : ℚ) < a then max (jsRound a) ⌈a * (6 / 5)⌉ else t

/-- The upsert query key (attendance.js lines 1097-1112): equality on
student, subject and type, plus `period = p` when a period was extracted,
or `$or [{period: null}, {period: {$exists: false}}]` when not — both
period cases are `r.period = w.period` in the model, where `none` covers
null and absent alike. -/
def keyMatches (r w : AttRec) : Prop :=
  r.studentId = w.studentId ∧ r.subjectId = w.subjectId ∧ r.type = w.type ∧ r.period = w.period

instance (r w : AttRec) : Decidable (keyMatches r w) := by
  unfold keyMatches; infer_instance

/-- The `$set` clause of the upsert (attendance.js lines 1117-1127): the
payload fields and `period` are overwritten; the key trio
(studentId, subjectId, type) comes from the query and is unchanged. -/
def setRec (r w : AttRec) : AttRec :=
  { r with
    totalConducted := w.totalConducted
    totalAttended := w.totalAttended
    percentage := w.percentage
    period := w.period
    division := w.division
    batch := w.batch
    recordedBy := w.recordedBy }

/-- `Attendance.findOneAndUpdate(query, {$set: ...}, {upsert: true})`
(attendance.js lines 1115-1133): update the first record matching the key
in place, or append a new record when none matches. -/
def applyWrite : List AttRec → AttRec → List AttRec
  | [], w => [w]
  | r :: rs, w => if keyMatches r w then setRec r w :: rs else r :: applyWrite rs w

/-- A sequence of upserts, in program order. -/
def applyWrites (db : List AttRec) (ws : List AttRec) : List AttRec :=
  ws.foldl applyWrite db

/-- Processing of one (student row, resolved subject column) pair,
attendance.js lines 1032-1201.  Returns the possibly mutated subject info
(the line-1043 in-place update of `subjectInfo.totalLectures`), the
summary write if the pair is not skipped, and the allocation-total
tracking entry if a sheet-header total was found (lines 1158-1190). -/
def processPair (division : String) (period : Option String) (teacherId : ℕ)
    (si : SubjectInfo) (stu : StudentRec) (attCell pctCell : SheetCell) :
    SubjectInfo × Option AttRec × Option (AllocKey × ℕ) :=
  match cellToNum attCell with
  | none => (si, none, none)
  | some a =>
    if a < 0 then (si, none, none)
    else
      let p : ℚ := (cellToNum pctCell).getD 0
      let si1 : SubjectInfo :=
        if si.type = SubjType.Practical then
          match lookupBatchTruthy si.batchInfo stu.batch with
          | some v => { si with totalLectures := some v }
          | none => si
        else si
      let t := computeTotalClasses si1.totalLectures a p
      let calcPct : ℚ := if 0 < t then a / (t : ℚ) * 100 else 0
      let finalPct : ℚ := if 0 < p then p else calcPct
      let w : AttRec :=
        { studentId := stu.id
          subjectId := si.subjectId
          type := si.type
          period := period
          totalConducted := jsRound (t : ℚ)
          totalAttended := jsRound a
          percentage := finalPct
          division := division
          batch := if si.type = SubjType.Practical then stu.batch else none
          recordedBy := teacherId }
      let batchKey : String := if si.type = SubjType.Practical then stu.batch.getD "" else ""
      let key : AllocKey := ⟨si.subjectId, si.type, division, batchKey⟩
      let header : Option ℕ :=
        match si.type, lookupBatchTruthy si.batchInfo stu.batch with
        | SubjType.Practical, some v => some v
        | _, _ =>
          match si1.totalLectures with
          | some v => if 0 < v then some v else none
          | none => none
      (si1, some w, header.map (fun v => (key, v)))

/-- `row[i]` on the cell list: an out-of-range read is `undefined`, which
`|| 0` then treats exactly like an empty cell. -/
def cellAt : List SheetCell → ℕ → SheetCell
  | [], _ => SheetCell.empty
  | c :: _, 0 => c
  | _ :: rest, n + 1 => cellAt rest n

/-- In-memory upload state: the mutable `subjectMap` (col → subject info),
the Attendance collection, and the `allocationUpdates` accumulation map
in insertion order. -/
structure UploadState where
  smap : List (ℕ × SubjectInfo)
  db : List AttRec
  allocUpd : List (AllocKey × ℕ)
deriving DecidableEq

/-- Replace the subject info stored under column `c` (the effect of the
in-place mutation of the shared `subjectInfo` object). -/
def setSmap (l : List (ℕ × SubjectInfo)) (c : ℕ) (si : SubjectInfo) :
    List (ℕ × SubjectInfo) :=
  l.map (fun e => if e.1 = c then (c, si) else e)

/-- `allocationUpdates[key] = {...}` (attendance.js lines 1169-1187):
insert at the end on first sight, otherwise overwrite in place. -/
def updateAllocUpd (l : List (AllocKey × ℕ)) (k : AllocKey) (v : ℕ) :
    List (AllocKey × ℕ) :=
  match l with
  | [] => [(k, v)]
  | kv :: rest => if kv.1 = k then (k, v) :: rest else kv :: updateAllocUpd rest k v

/-- One iteration of the inner `for (const [colIndex, subjectInfo] of
Object.entries(subjectMap))` loop (attendance.js line 1032). -/
def processOneCol (division : String) (period : Option String) (teacherId : ℕ)
    (stu : StudentRec) (row : List SheetCell) (st : UploadState) (c : ℕ) : UploadState :=
  match st.smap.lookup c with
  | none => st
  | some si =>
    let r := processPair division period teacherId si stu
      (cellAt row c) (cellAt row (c + 1))
    { smap := setSmap st.smap c r.1
      db := match r.2.1 with
        | some w => applyWrite st.db w
        | none => st.db
      allocUpd := match r.2.2 with
        | some kv => updateAllocUpd st.allocUpd kv.1 kv.2
        | none => st.allocUpd }

/-- The inner column loop over an explicit column list. -/
def processCols (division : String) (period : Option String) (teacherId : ℕ)
    (stu : StudentRec) (row : List SheetCell) :
    List ℕ → UploadState → UploadState
  | [], st => st
  | c :: cs, st =>
    processCols division period teacherId stu row cs
      (processOneCol division period teacherId stu row st c)

/-- One student row of the sheet: the UID cell and the full cell list
(cells are addressed by absolute column index, as in the source). -/
structure SheetRow where
  uid : String
  cells : List SheetCell
deriving DecidableEq

/-- One iteration of the outer student-row loop (attendance.js lines
1010-1203): skip blank UIDs, skip (with a per-row error, not modelled)
students absent from the division, else process every subject column.
The columns iterated are the keys of the current subject map, which the
processing never adds to or removes from. -/
def processRow (division : String) (period : Option String) (teacherId : ℕ)
    (students : List StudentRec) (st : UploadState) (row : SheetRow) : UploadState :=
  if row.uid = "" then st
  else
    match students.find? (fun s => s.uid == row.uid) with
    | none => st
    | some stu => processCols division period teacherId stu row.cells (st.smap.map Prod.fst) st

/-- The full student-row loop of one division-sheet upload. -/
def runUpload (division : String) (period : Option String) (teacherId : ℕ)
    (students : List StudentRec) (st : UploadState) (rows : List SheetRow) : UploadState :=
  rows.foldl (processRow division period teacherId students) st

/-- The summary writes emitted by the column loop, paired with the subject
map it leaves behind; a db-free rephrasing of `processCols` used to show
the writes of an upload do not depend on the Attendance collection. -/
def colsWrites (division : String) (period : Option String) (teacherId : ℕ)
    (stu : StudentRec) (row : List SheetCell) :
    List ℕ → List (ℕ × SubjectInfo) → List AttRec × List (ℕ × SubjectInfo)
  | [], smap => ([], smap)
  | c :: cs, smap =>
    match smap.lookup c with
    | none => colsWrites division period teacherId stu row cs smap
    | some si =>
      let r := processPair division period teacherId si stu
        (cellAt row c) (cellAt row (c + 1))
      let rest := colsWrites division period teacherId stu row cs (setSmap smap c r.1)
      ((match r.2.1 with
        | some w => [w]
        | none => []) ++ rest.1, rest.2)

/-- The summary writes emitted by a whole upload, in program order,
paired with the final subject map. -/
def uploadWritesAux (division : String) (period : Option String) (teacherId : ℕ)
    (students : List StudentRec) :
    List SheetRow → List (ℕ × SubjectInfo) → List AttRec × List (ℕ × SubjectInfo)
  | [], smap => ([], smap)
  | row :: rest, smap =>
    if row.uid = "" then uploadWritesAux division period teacherId students rest smap
    else
      match students.find? (fun s => s.uid == row.uid) with
      | none => uploadWritesAux division period teacherId students rest smap
      | some stu =>
        let r := colsWrites division period teacherId stu row.cells (smap.map Prod.fst) smap
        let rec2 := uploadWritesAux division period teacherId students rest r.2
        (r.1 ++ rec2.1, rec2.2)

/-- The summary writes emitted by a whole upload.  They depend on the
sheet rows, the division students and the subject map, but never on the
Attendance collection, which the row loop only writes. -/
def uploadWrites (division : String) (period : Option String) (teacherId : ℕ)
    (students : List StudentRec) (rows : List SheetRow)
    (smap : List (ℕ × SubjectInfo)) : List AttRec :=
  (uploadWritesAux division period teacherId students rows smap).1

/-- The allocation query of the reconcile loop (attendance.js lines
1210-1219): subject, type and division always; batch only for Practical
keys with a nonempty batch (an empty batch string is falsy, so the query
then omits batch). -/
def allocMatches (k : AllocKey) (a : Allocation) : Prop :=
  a.subjectId = k.subjectId ∧ a.type = k.type ∧ a.division = k.division ∧
    ((k.type = SubjType.Practical ∧ k.batchKey ≠ "") → a.batch = some k.batchKey)

instance (k : AllocKey) (a : Allocation) : Decidable (allocMatches k a) := by
  unfold allocMatches; infer_instance

/-- `Allocation.findOneAndUpdate(query, {$set: {totalPlanned, totalConducted}})`
without upsert (attendance.js lines 1221-1230): first match updated, a
miss only logs. -/
def allocSetFirst : List Allocation → AllocKey → ℕ → List Allocation
  | [], _, _ => []
  | a :: rest, k, v =>
    if allocMatches k a then
      { a with totalPlanned := (v : ℤ), totalConducted := (v : ℤ) } :: rest
    else a :: allocSetFirst rest k v

/-- The allocation reconcile loop (attendance.js lines 1208-1241) applied
to the accumulated `allocationUpdates` entries, in insertion order. -/
def applyAllocUpdates (allocs : List Allocation) (upds : List (AllocKey × ℕ)) :
    List Allocation :=
  upds.foldl (fun acc kv => allocSetFirst acc kv.1 kv.2) allocs

/-- The three report bands of GET /defaulters/report. -/
inductive DefaulterBand where
  | below50
  | between50to65
  | between65_1_to74_99
deriving DecidableEq

/-- The banding cascade of attendance.js lines 1460-1466:
`percent < 50`, `percent >= 50 && percent <= 65`,
`percent > 65 && percent <= 74.99`, else no band. -/
def classifyBand (percent : ℚ) : Option DefaulterBand :=
  if percent < 50 then some DefaulterBand.below50
  else if 50 ≤ percent ∧ percent ≤ 65 then some DefaulterBand.between50to65
  else if 65 < percent ∧ percent ≤ 74.99 then some DefaulterBand.between65_1_to74_99
  else none

/-- `String.toUpperCase()` on the division form field. -/
def toUpperStr (s : String) : String := String.mk (s.data.map Char.toUpper)

/-- The file extension split performed at attendance.js line 457. -/
inductive FileExt where
  | xlsx
  | xls
  | csvExt
  | otherExt
deriving DecidableEq

/-- Outcome of `processDivisionSheet` as seen by the route handler:
normal success response, an early validation-failure response, or a thrown
error (which processDivisionSheet re-throws after its own unlink,
attendance.js lines 1297-1301). -/
inductive ProcOutcome where
  | success
  | validationFail
  | procError
deriving DecidableEq

/-- What a request leaves behind: the HTTP status responded and whether
the uploaded temp file was deleted by the time the handler finished. -/
structure HandlerResult where
  status : ℕ
  fileDeleted : Bool
deriving DecidableEq

/-- Exit-path model of POST /upload-division-sheet (attendance.js lines
437-511).  Checks happen in source order: the division-letter check (lines
442-447) responds 400 WITHOUT any unlink; the missing-file check (449-454)
has nothing to delete; supported extensions hand over to
processDivisionSheet, each of whose exits (success, every validation
failure, its catch-and-rethrow into the route catch at 500-510) unlinks
the file; an unsupported extension unlinks then responds 400 (489-495). -/
def uploadDivisionSheet (division : Option String) (hasFile : Bool)
    (ext : FileExt) (proc : ProcOutcome) : HandlerResult :=
  match division with
  | none => { status := 400, fileDeleted := false }
  | some d =>
    if ¬ (toUpperStr d = "A" ∨ toUpperStr d = "B" ∨ toUpperStr d = "C" ∨ toUpperStr d = "D") then
      { status := 400, fileDeleted := false }
    else if ¬ hasFile then { status := 400, fileDeleted := false }
    else
      match ext with
      | FileExt.xlsx | FileExt.xls | FileExt.csvExt =>
        (match proc with
          | ProcOutcome.success => { status := 200, fileDeleted := true }
          | ProcOutcome.validationFail => { status := 400, fileDeleted := true }
          | ProcOutcome.procError => { status := 500, fileDeleted := true })
      | FileExt.otherExt => { status := 400, fileDeleted := true }

/-- JavaScript regex whitespace for the classes used by parseBatchInfo. -/
def isWsChar (c : Char) : Bool :=
  c == ' ' || c == '\t' || c == '\n' || c == '\r'

/-- `.replace(/\s+/g, ' ')`: collapse every whitespace run to one space.
The flag records whether the previous character was whitespace. -/
def collapseWsAux : List Char → Bool → List Char
  | [], _ => []
  | c :: rest, prevWs =>
    if isWsChar c then
      if prevWs then collapseWsAux rest true
      else ' ' :: collapseWsAux rest true
    else c :: collapseWsAux rest false

def collapseWs (l : List Char) : List Char := collapseWsAux l false

/-- `.replace(/\s*,\s*/g, ' ')` applied to already collapsed text (runs of
whitespace have length at most one, so the greedy leading `\s*` of a match
is zero or one character). -/
def commaPassAux : List Char → List Char
  | [] => []
  | [c] => if c == ',' then [' '] else [c]
  | c :: d :: rest =>
    if c == ',' then
      if isWsChar d then ' ' :: commaPassAux rest
      else ' ' :: commaPassAux (d :: rest)
    else if isWsChar c && d == ',' then
      match rest with
      | [] => [' ']
      | e :: rest2 =>
        if isWsChar e then ' ' :: commaPassAux rest2
        else ' ' :: commaPassAux (e :: rest2)
    else c :: commaPassAux (d :: rest)

/-- `.trim()`. -/
def trimWs (l : List Char) : List Char :=
  ((l.dropWhile isWsChar).reverse.dropWhile isWsChar).reverse

/-- The normalisation pipeline of parseBatchInfo (attendance.js lines
521-524): collapse whitespace, erase commas with their surrounding
whitespace, trim. -/
def normalizeBatchChars (s : String) : List Char :=
  trimWs (commaPassAux (collapseWs s.data))

/-- `[A-D]` under the `i` flag. -/
def isBatchLetter (c : Char) : Bool :=
  c == 'A' || c == 'B' || c == 'C' || c == 'D' ||
  c == 'a' || c == 'b' || c == 'c' || c == 'd'

/-- `parseInt(digits, 10)` on a nonempty digit string. -/
def natOfDigits (ds : List Char) : ℕ :=
  ds.foldl (fun acc d => acc * 10 + (d.toNat - '0'.toNat)) 0

/-- One attempt of the pattern `([A-D])\s*[=:]\s*(\d+)` (with the `i`
flag) anchored at the head of the list: on success, the upper-cased
letter, the parsed value, and the number of characters the match
consumed. -/
def matchBatchAt (l : List Char) : Option (Char × ℕ × ℕ) :=
  match l with
  | [] => none
  | c :: rest =>
    if isBatchLetter c then
      let w1 := (rest.takeWhile isWsChar).length
      let r1 := rest.drop w1
      match r1 with
      | [] => none
      | s :: r2 =>
        if s == '=' || s == ':' then
          let w2 := (r2.takeWhile isWsChar).length
          let r3 := r2.drop w2
          let ds := r3.takeWhile Char.isDigit
          if 0 < ds.length then some (c.toUpper, natOfDigits ds, 1 + w1 + 1 + w2 + ds.length)
          else none
        else none
    else none

/-- The `while ((match = batchPattern.exec(normalized)) !== null)` loop
(attendance.js lines 529-538): the regex engine scans left to right,
emitting each match and resuming after its last character; positions that
start no match are skipped one character at a time.  Every successful
match consumes at least one character, so fuel equal to the list length
suffices. -/
def scanBatchesF : ℕ → List Char → List (Char × ℕ)
  | 0, _ => []
  | fuel + 1, l =>
    match matchBatchAt l with
    | some cvn => (cvn.1, cvn.2.1) :: scanBatchesF fuel (l.drop cvn.2.2)
    | none =>
      match l with
      | [] => []
      | _ :: rest => scanBatchesF fuel rest

/-- `batchInfo[batch] = value` on a plain object: later entries with the
same letter overwrite in place, preserving first-insertion order. -/
def updateAssoc (l : List (Char × ℕ)) (k : Char) (v : ℕ) : List (Char × ℕ) :=
  match l with
  | [] => [(k, v)]
  | kv :: rest => if kv.1 = k then (k, v) :: rest else kv :: updateAssoc rest k v

/-- parseBatchInfo (attendance.js lines 515-546).  The source guard
`!isNaN(value) && value >= 0` always holds for a `\d+` capture, so every
scanned match is stored. -/
def parseBatchInfo (s : String) : List (Char × ℕ) :=
  let norm := normalizeBatchChars s
  (scanBatchesF norm.length norm).foldl (fun acc cv => updateAssoc acc cv.1 cv.2) []

/-- State of the allocation sync scheduler (allocationSyncWorker.js):
the module-level `isRunning` flag and, for the concurrency property, the
number of sync bodies currently executing. -/
structure SyncState where
  isRunning : Bool
  active : ℕ
deriving DecidableEq

/-- Scheduler events: an interval tick invoking `syncAllocationStudents`,
and the completion of a running body (its `finally` clause). -/
inductive SyncEvent where
  | tick
  | finish
deriving DecidableEq

/-- One scheduler step (allocationSyncWorker.js lines 16-24 and 111-117).
A tick finding `isRunning` true returns at once having started nothing
(the Bool result records whether a body was started); otherwise it sets
the flag and enters the body.  The check and the set are separated by no
await, so on the single-threaded event loop they are one atomic step.
`finish` is the `finally` of a running body: clear the flag. -/
def syncStep : SyncState → SyncEvent → SyncState × Bool
  | s, SyncEvent.tick =>
    if s.isRunning then (s, false) else (⟨true, s.active + 1⟩, true)
  | s, SyncEvent.finish =>
    if s.isRunning then (⟨false, s.active - 1⟩, false) else (s, false)

/-- The scheduler state after a sequence of events from the module-load
state (`isRunning = false`, nothing executing). -/
def runSync (es : List SyncEvent) : SyncState :=
  es.foldl (fun s e => (syncStep s e).1) ⟨false, 0⟩

/-- A student as iterated by checkDefaulters. -/
structure DStudent where
  id : ℕ
deriving DecidableEq

/-- An attendance record as read by checkDefaulters; `subjectId = none`
models a record whose subject failed to populate. -/
structure DRecord where
  subjectId : Option ℕ
  totalConducted : ℤ
  totalAttended : ℤ
  percentage : ℚ
deriving DecidableEq

/-- The database as checkDefaulters sees it.  Each query can fail
(a rejected promise), which the surrounding try/catch must absorb. -/
structure DefaulterEnv where
  students : Except Unit (List DStudent)
  attendanceOf : ℕ → Except Unit (List DRecord)

/-- A per-subject accumulator of checkDefaulters (attendance.js lines
1515-1531). -/
structure DefSubjectStat where
  subjectId : ℕ
  total : ℤ
  present : ℤ
  percentage : ℚ
deriving DecidableEq

/-- Accumulate one record into the per-subject stats: totals add up
across periods, a positive stored percentage overwrites the running one
(attendance.js lines 1524-1531). -/
def statUpdate (stats : List DefSubjectStat) (sid : ℕ) (r : DRecord) :
    List DefSubjectStat :=
  match stats with
  | [] => [⟨sid, r.totalConducted, r.totalAttended,
           if 0 < r.percentage then r.percentage else 0⟩]
  | s :: rest =>
    if s.subjectId = sid then
      ⟨s.subjectId, s.total + r.totalConducted, s.present + r.totalAttended,
       if 0 < r.percentage then r.percentage else s.percentage⟩ :: rest
    else s :: statUpdate rest sid r

/-- The record loop of checkDefaulters (attendance.js lines 1499-1532):
skip unpopulated subjects, apply the teacher-scoping double check, then
accumulate. -/
def buildSubjectStats (allocIds : Option (List ℕ)) (records : List DRecord) :
    List DefSubjectStat :=
  records.foldl
    (fun stats r =>
      match r.subjectId with
      | none => stats
      | some sid =>
        match allocIds with
        | some l => if sid ∈ l then statUpdate stats sid r else stats
        | none => statUpdate stats sid r)
    []

/-- attendance.js lines 1535-1540: the stored percentage when nonzero,
else the ratio when a total exists, else 0. -/
def effectivePct (s : DefSubjectStat) : ℚ :=
  if s.percentage = 0 ∧ 0 < s.total then (s.present : ℚ) / (s.total : ℚ) * 100
  else s.percentage

/-- The per-student body of checkDefaulters: fetch the student's records
(a fallible query), skip students with none, keep subjects below the
threshold, append the student when any subject offends. -/
def checkDefaultersStep (threshold : ℚ) (allocIds : Option (List ℕ))
    (env : DefaulterEnv) (acc : List (ℕ × List DefSubjectStat)) (stu : DStudent) :
    Except Unit (List (ℕ × List DefSubjectStat)) :=
  match env.attendanceOf stu.id with
  | Except.error e => Except.error e
  | Except.ok atts =>
    if atts.length = 0 then Except.ok acc
    else
      let stats := buildSubjectStats allocIds atts
      let ds := stats.filter (fun st => decide (effectivePct st < threshold))
      Except.ok (if 0 < ds.length then acc ++ [(stu.id, ds)] else acc)

/-- Everything inside the `try` of checkDefaulters (attendance.js lines
1478-1566): any failing step aborts the whole computation with an error. -/
def checkDefaultersBody (threshold : ℚ) (allocIds : Option (List ℕ))
    (env : DefaulterEnv) : Except Unit (List (ℕ × List DefSubjectStat)) :=
  match env.students with
  | Except.error e => Except.error e
  | Except.ok studs => studs.foldlM (checkDefaultersStep threshold allocIds env) []

/-- checkDefaulters with its catch-all (attendance.js lines 1567-1570):
on any error, log and return the empty list. -/
def checkDefaulters (threshold : ℚ) (allocIds : Option (List ℕ))
    (env : DefaulterEnv) : List (ℕ × List DefSubjectStat) :=
  match checkDefaultersBody threshold allocIds env with
  | Except.ok v => v
  | Except.error _ => []

/-! Concrete inputs used by the evaluation theorems below. -/

/-- A Practical sheet subject whose header declared batch totals only for
letter A (so `totalLectures` was initialised to the division-A entry at
parse time, attendance.js line 660), uploaded for division A. -/
def c2Si : SubjectInfo := ⟨1, SubjType.Practical, some 10, some [("A", 10)]⟩

/-- A division-A student whose batch is C — a batch with no declared
total. -/
def c2Stu : StudentRec := ⟨20, "U2", some "C"⟩

/-- The pre-existing allocation for (subject 1, Practical, division A,
batch C) with stored totals 3/3. -/
def c2Alloc : Allocation := ⟨1, SubjType.Practical, "A", some "C", 3, 3⟩

/-- The student's sheet row: subject column 4 holds attended = 5, the
percentage column is empty. -/
def c2Row : SheetRow :=
  ⟨"U2", [SheetCell.empty, SheetCell.empty, SheetCell.empty, SheetCell.empty,
          SheetCell.num 5, SheetCell.empty]⟩

/-- The allocation collection after the upload and its reconcile pass. -/
def c2Final : List Allocation :=
  applyAllocUpdates [c2Alloc]
    (runUpload "A" none 7 [c2Stu] ⟨[(4, c2Si)], [], []⟩ [c2Row]).allocUpd

/-- A Practical sheet subject with a declared total only for batch B and
no division-A entry, so `totalLectures` starts null. -/
def c3Si : SubjectInfo := ⟨1, SubjType.Practical, none, some [("B", 11)]⟩

/-- A batch-B student. -/
def c3X : StudentRec := ⟨10, "U1", some "B"⟩

/-- A batch-C student (no declared total for batch C). -/
def c3Y : StudentRec := ⟨20, "U2", some "C"⟩

/-- The batch-B student's row: attended = 5 in column 4, no percentage. -/
def c3RowX : SheetRow :=
  ⟨"U1", [SheetCell.empty, SheetCell.empty, SheetCell.empty, SheetCell.empty,
          SheetCell.num 5, SheetCell.empty]⟩

/-- The batch-C student's row: attended = 5 in column 4, no percentage. -/
def c3RowY : SheetRow :=
  ⟨"U2", [SheetCell.empty, SheetCell.empty, SheetCell.empty, SheetCell.empty,
          SheetCell.num 5, SheetCell.empty]⟩

/-- The Attendance collection after processing rows in order (X, Y). -/
def c3Db1 : List AttRec :=
  (runUpload "A" none 7 [c3X, c3Y] ⟨[(4, c3Si)], [], []⟩ [c3RowX, c3RowY]).db

/-- The Attendance collection after processing the same rows in order
(Y, X). -/
def c3Db2 : List AttRec :=
  (runUpload "A" none 7 [c3X, c3Y] ⟨[(4, c3Si)], [], []⟩ [c3RowY, c3RowX]).db

/-- A Theory sheet subject with a declared total of 40. -/
def c6Si : SubjectInfo := ⟨2, SubjType.Theory, some 40, none⟩

/-- A student with no batch. -/
def c6Stu : StudentRec := ⟨30, "U3", none⟩

/-- An environment whose database queries all fail. -/
def c10Env : DefaulterEnv := ⟨Except.error (), fun _ => Except.error ()⟩

/-! Lemmas about the upsert: keys are preserved, matches are monotone,
and an upsert whose key is already present keeps the record count. -/

/-- Updating a matching record in place does not change its key: the
`$set` clause rewrites `period` to the very value the query matched. -/
theorem keyMatches_setRec {r w : AttRec} (h : keyMatches r w) (w' : AttRec) :
    keyMatches (setRec r w) w' ↔ keyMatches r w' := by
  obtain ⟨h1, h2, h3, h4⟩ := h
  simp [keyMatches, setRec, h4]

/-- After an upsert, some record matches the written key. -/
theorem exists_keyMatch_applyWrite (db : List AttRec) (w : AttRec) :
    ∃ r ∈ applyWrite db w, keyMatches r w := by
  induction db with
  | nil => exact ⟨w, by simp [applyWrite], rfl, rfl, rfl, rfl⟩
  | cons r rs ih =>
    by_cases h : keyMatches r w
    · exact ⟨setRec r w, by simp [applyWrite, h], (keyMatches_setRec h w).mpr h⟩
    · obtain ⟨r0, hmem, hk⟩ := ih
      exact ⟨r0, by simp [applyWrite, h, hmem], hk⟩

/-- An upsert never removes an existing key from the collection. -/
theorem keyMatch_mono {db : List AttRec} {w' : AttRec}
    (h : ∃ r ∈ db, keyMatches r w') (w : AttRec) :
    ∃ r ∈ applyWrite db w, keyMatches r w' := by
  induction db with
  | nil => simp at h
  | cons r rs ih =>
    obtain ⟨r0, hmem, hk⟩ := h
    by_cases hrw : keyMatches r w
    · rcases List.mem_cons.mp hmem with heq | hm
      · exact ⟨setRec r w, by simp [applyWrite, hrw],
          (keyMatches_setRec hrw w').mpr (heq ▸ hk)⟩
      · exact ⟨r0, by simp [applyWrite, hrw, hm], hk⟩
    · rcases List.mem_cons.mp hmem with heq | hm
      · exact ⟨r, by simp [applyWrite, hrw], heq ▸ hk⟩
      · obtain ⟨r1, hmem1, hk1⟩ := ih ⟨r0, hm, hk⟩
        exact ⟨r1, by simp [applyWrite, hrw, hmem1], hk1⟩

/-- An upsert whose key already exists updates in place: no new row. -/
theorem length_applyWrite_of_match {db : List AttRec} {w : AttRec}
    (h : ∃ r ∈ db, keyMatches r w) :
    (applyWrite db w).length = db.length := by
  induction db with
  | nil => simp at h
  | cons r rs ih =>
    by_cases hrw : keyMatches r w
    · simp [applyWrite, hrw]
    · obtain ⟨r0, hmem, hk⟩ := h
      rcases List.mem_cons.mp hmem with heq | hm
      · exact absurd (heq ▸ hk) hrw
      · simp [applyWrite, hrw, ih ⟨r0, hm, hk⟩]

/-- A whole write sequence never removes an existing key. -/
theorem keyMatch_mono_writes {db : List AttRec} {w' : AttRec}
    (h : ∃ r ∈ db, keyMatches r w') (ws : List AttRec) :
    ∃ r ∈ applyWrites db ws, keyMatches r w' := by
  induction ws generalizing db with
  | nil => exact h
  | cons w ws ih => exact ih (keyMatch_mono h w)

/-- After a write sequence, every written key is present. -/
theorem keyMatch_all_applyWrites {ws : List AttRec} {w : AttRec}
    (hw : w ∈ ws) (db : List AttRec) :
    ∃ r ∈ applyWrites db ws, keyMatches r w := by
  induction ws generalizing db with
  | nil => simp at hw
  | cons w0 ws ih =>
    rcases List.mem_cons.mp hw with heq | hm
    · subst heq
      exact keyMatch_mono_writes (exists_keyMatch_applyWrite db w) ws
    · exact ih hm (applyWrite db w0)

/-- A write sequence all of whose keys are already present creates no
rows at all. -/
theorem length_applyWrites_of_all {ws db : List AttRec}
    (h : ∀ w ∈ ws, ∃ r ∈ db, keyMatches r w) :
    (applyWrites db ws).length = db.length := by
  induction ws generalizing db with
  | nil => rfl
  | cons w0 ws ih =>
    have h0 : (applyWrites (applyWrite db w0) ws).length = (applyWrite db w0).length :=
      ih (fun w hw => keyMatch_mono (h w (List.mem_cons_of_mem w0 hw)) w0)
    calc (applyWrites db (w0 :: ws)).length
        = (applyWrites (applyWrite db w0) ws).length := rfl
      _ = (applyWrite db w0).length := h0
      _ = db.length := length_applyWrite_of_match (h w0 (List.mem_cons_self w0 ws))

/-- Replaying any write sequence over its own result creates zero rows. -/
theorem length_applyWrites_twice (db ws : List AttRec) :
    (applyWrites (applyWrites db ws) ws).length = (applyWrites db ws).length :=
  length_applyWrites_of_all (fun _ hw => keyMatch_all_applyWrites hw db)

/-- The column loop factors through `colsWrites`: its subject-map result
ignores the Attendance collection, and its Attendance result is exactly
the accumulated upserts applied to the incoming collection. -/
theorem processCols_proj (division : String) (period : Option String) (teacherId : ℕ)
    (stu : StudentRec) (row : List SheetCell) :
    ∀ (cols : List ℕ) (st : UploadState),
      (processCols division period teacherId stu row cols st).smap =
        (colsWrites division period teacherId stu row cols st.smap).2 ∧
      (processCols division period teacherId stu row cols st).db =
        applyWrites st.db (colsWrites division period teacherId stu row cols st.smap).1 := by
  intro cols
  induction cols with
  | nil => intro st; exact ⟨rfl, rfl⟩
  | cons c cs ih =>
    intro st
    have hstep : processCols division period teacherId stu row (c :: cs) st =
        processCols division period teacherId stu row cs
          (processOneCol division period teacherId stu row st c) := rfl
    cases hl : st.smap.lookup c with
    | none =>
      have hone : processOneCol division period teacherId stu row st c = st := by
        simp [processOneCol, hl]
      have hcw : colsWrites division period teacherId stu row (c :: cs) st.smap =
          colsWrites division period teacherId stu row cs st.smap := by
        simp [colsWrites, hl]
      refine ⟨?_, ?_⟩
      · rw [hstep, hone, hcw]; exact (ih st).1
      · rw [hstep, hone, hcw]; exact (ih st).2
    | some si =>
      rcases hpp : processPair division period teacherId si stu (cellAt row c)
        (cellAt row (c + 1)) with ⟨si2, ow, ou⟩
      have hone : processOneCol division period teacherId stu row st c =
          { smap := setSmap st.smap c si2
            db := match ow with
              | some w => applyWrite st.db w
              | none => st.db
            allocUpd := match ou with
              | some kv => updateAllocUpd st.allocUpd kv.1 kv.2
              | none => st.allocUpd } := by
        simp [processOneCol, hl, hpp]
        cases ow <;> cases ou <;> exact ⟨rfl, rfl⟩
      have hcw : colsWrites division period teacherId stu row (c :: cs) st.smap =
          ((match ow with
            | some w => [w]
            | none => []) ++
             (colsWrites division period teacherId stu row cs (setSmap st.smap c si2)).1,
           (colsWrites division period teacherId stu row cs (setSmap st.smap c si2)).2) := by
        simp [colsWrites, hl, hpp]
        cases ow <;> rfl
      have hih := ih (processOneCol division period teacherId stu row st c)
      rw [hone] at hih
      refine ⟨?_, ?_⟩
      · rw [hstep, hone, hcw]
        exact hih.1
      · rw [hstep, hone, hcw]
        rw [hih.2]
        cases ow with
        | none => simp [applyWrites]
        | some w => simp [applyWrites]

/-- The row loop factors through `uploadWritesAux`: the writes of an
upload are a function of the sheet, the students and the subject map
only, and the final Attendance collection is those writes upserted into
the incoming collection. -/
theorem runUpload_proj (division : String) (period : Option String) (teacherId : ℕ)
    (students : List StudentRec) :
    ∀ (rows : List SheetRow) (st : UploadState),
      (runUpload division period teacherId students st rows).smap =
        (uploadWritesAux division period teacherId students rows st.smap).2 ∧
      (runUpload division period teacherId students st rows).db =
        applyWrites st.db (uploadWritesAux division period teacherId students rows st.smap).1 := by
  intro rows
  induction rows with
  | nil => intro st; exact ⟨rfl, rfl⟩
  | cons row rest ih =>
    intro st
    have hstep : runUpload division period teacherId students st (row :: rest) =
        runUpload division period teacherId students
          (processRow division period teacherId students st row) rest := rfl
    by_cases hu : row.uid = ""
    · have hrow : processRow division period teacherId students st row = st := by
        simp [processRow, hu]
      have haux : uploadWritesAux division period teacherId students (row :: rest) st.smap =
          uploadWritesAux division period teacherId students rest st.smap := by
        simp [uploadWritesAux, hu]
      refine ⟨?_, ?_⟩
      · rw [hstep, hrow, haux]; exact (ih st).1
      · rw [hstep, hrow, haux]; exact (ih st).2
    · cases hf : students.find? (fun s => s.uid == row.uid) with
      | none =>
        have hrow : processRow division period teacherId students st row = st := by
          simp [processRow, hu, hf]
        have haux : uploadWritesAux division period teacherId students (row :: rest) st.smap =
            uploadWritesAux division period teacherId students rest st.smap := by
          simp [uploadWritesAux, hu, hf]
        refine ⟨?_, ?_⟩
        · rw [hstep, hrow, haux]; exact (ih st).1
        · rw [hstep, hrow, haux]; exact (ih st).2
      | some stu =>
        have hcols := processCols_proj division period teacherId stu row.cells
          (st.smap.map Prod.fst) st
        have hrow : processRow division period teacherId students st row =
            processCols division period teacherId stu row.cells (st.smap.map Prod.fst) st := by
          simp [processRow, hu, hf]
        have haux : uploadWritesAux division period teacherId students (row :: rest) st.smap =
            ((colsWrites division period teacherId stu row.cells
                (st.smap.map Prod.fst) st.smap).1 ++
              (uploadWritesAux division period teacherId students rest
                (colsWrites division period teacherId stu row.cells
                  (st.smap.map Prod.fst) st.smap).2).1,
             (uploadWritesAux division period teacherId students rest
                (colsWrites division period teacherId stu row.cells
                  (st.smap.map Prod.fst) st.smap).2).2) := by
          simp [uploadWritesAux, hu, hf]
        have hih := ih (processRow division period teacherId students st row)
        refine ⟨?_, ?_⟩
        · rw [hstep, hih.1, hrow, hcols.1, haux]
        · rw [hstep, hih.2, hrow, hcols.2, hcols.1, haux]
          rw [applyWrites, applyWrites, applyWrites, List.foldl_append]

/-- Claim C1: attendance summaries are keyed by (studentId, subjectId,
kind, period), a null period matching any record of that (student,
subject, kind) whose period is null or absent; hence for every pair of
uploads of the same sheet the second upload creates zero new
AttendanceSummary rows and only updates the existing rows in place.  The
writes of an upload depend only on the sheet rows, the division students
and the freshly parsed subject map — never on the Attendance collection
— so the second upload issues the identical write sequence, and replaying
it leaves the record count unchanged. -/
theorem c1_second_upload_idempotent :
    ∀ (division : String) (period : Option String) (teacherId : ℕ)
      (students : List StudentRec) (rows : List SheetRow)
      (smap : List (ℕ × SubjectInfo)) (db : List AttRec) (au au2 : List (AllocKey × ℕ)),
      ((runUpload division period teacherId students
          ⟨smap, (runUpload division period teacherId students ⟨smap, db, au⟩ rows).db, au2⟩
          rows).db).length =
        ((runUpload division period teacherId students ⟨smap, db, au⟩ rows).db).length := by
  intro d p t studs rows smap db au au2
  have h1 := (runUpload_proj d p t studs rows ⟨smap, db, au⟩).2
  have h2 := (runUpload_proj d p t studs rows
    ⟨smap, (runUpload d p t studs ⟨smap, db, au⟩ rows).db, au2⟩).2
  rw [h2, h1]
  exact length_applyWrites_twice db (uploadWritesAux d p t studs rows smap).1

/-- The safety floor raises at least to `a * 1.2` rounded up, which
dominates `a` itself for nonnegative `a`. -/
theorem le_floor_branch {a : ℚ} (ha : 0 ≤ a) (x : ℤ) :
    a ≤ ((max x ⌈a * (6 / 5)⌉ : ℤ) : ℚ) := by
  have h1 : a ≤ a * (6 / 5) := by nlinarith
  have h2 : a * (6 / 5) ≤ (⌈a * (6 / 5)⌉ : ℚ) := Int.le_ceil _
  have h3 : ((⌈a * (6 / 5)⌉ : ℤ) : ℚ) ≤ ((max x ⌈a * (6 / 5)⌉ : ℤ) : ℚ) := by
    exact_mod_cast le_max_right x ⌈a * (6 / 5)⌉
  linarith

/-- Claim C4: for every processed pair the stored total is at least the
attended value, and whenever the derived total falls below the attended
value it is raised to `max(round(attended), ceil(attended * 1.2))`. -/
theorem c4_safety_floor :
    ∀ (tl : Option ℕ) (a p : ℚ), 0 ≤ a →
      a ≤ (computeTotalClasses tl a p : ℚ) ∧
      ((derivedTotal tl a p : ℚ) < a →
        computeTotalClasses tl a p = max (jsRound a) ⌈a * (6 / 5)⌉) := by
  intro tl a p ha
  constructor
  · simp only [computeTotalClasses]
    split_ifs with h
    · exact le_floor_branch ha (jsRound a)
    · push_neg at h
      exact h.2
  · intro hlt
    simp only [computeTotalClasses]
    rw [if_pos (Or.inr hlt)]

/-- Witness for C4 at the quoted instance: attended = 30, no positive
percentage, no sheet-declared total. -/
theorem c4_safety_floor_witness :
    (0 : ℚ) ≤ 30 ∧ (30 : ℚ) ≤ (computeTotalClasses none 30 0 : ℚ) :=
  ⟨by norm_num, (c4_safety_floor none 30 0 (by norm_num)).1⟩

/-- Counterexample to claim C5 as stated: 74.995 lies in the claimed
third band (65, 75), yet the report code places it in no band at all,
because its upper bound is 74.99, not 75. -/
theorem c5_band_gap_counterexample :
    classifyBand 74.995 = none ∧ (65 : ℚ) < 74.995 ∧ (74.995 : ℚ) < 75 := by
  refine ⟨?_, by norm_num, by norm_num⟩
  norm_num [classifyBand]

/-- Claim C5 (amended): the bands are `< 50`, `[50, 65]` and
`(65, 74.99]`; every percentage at most 74.99 falls in exactly one band,
the quoted boundary cases land as stated, and percentages strictly
between 74.99 and 75 fall in no band. -/
theorem c5_banding_amended :
    (∀ p : ℚ, classifyBand p = some DefaulterBand.below50 ↔ p < 50) ∧
    (∀ p : ℚ, classifyBand p = some DefaulterBand.between50to65 ↔ 50 ≤ p ∧ p ≤ 65) ∧
    (∀ p : ℚ, classifyBand p = some DefaulterBand.between65_1_to74_99 ↔ 65 < p ∧ p ≤ 74.99) ∧
    classifyBand 49.99 = some DefaulterBand.below50 ∧
    classifyBand 50 = some DefaulterBand.between50to65 ∧
    classifyBand 65 = some DefaulterBand.between50to65 ∧
    classifyBand 65.01 = some DefaulterBand.between65_1_to74_99 ∧
    (∀ p : ℚ, 74.99 < p → p < 75 → classifyBand p = none) := by
  refine ⟨?_, ?_, ?_, ?_, ?_, ?_, ?_, ?_⟩
  · intro p
    unfold classifyBand
    split_ifs with h1 h2 h3 <;> simp_all
  · intro p
    unfold classifyBand
    split_ifs with h1 h2 h3 <;> simp_all
  · intro p
    unfold classifyBand
    split_ifs with h1 h2 h3 <;> simp_all <;> (intro h; linarith)
  · norm_num [classifyBand]
  · norm_num [classifyBand]
  · norm_num [classifyBand]
  · norm_num [classifyBand]
  · intro p h1 h2
    unfold classifyBand
    split_ifs with g1 g2 g3
    · exact absurd h1 (by linarith)
    · exact absurd h1 (by linarith [g2.2])
    · exact absurd h1 (by linarith [g3.2])
    · rfl

/-- Witness for C5 (amended): the gap instance and a boundary instance,
both obtained from the amended theorem. -/
theorem c5_banding_amended_witness :
    classifyBand 74.995 = none ∧ classifyBand 65.01 = some DefaulterBand.between65_1_to74_99 :=
  ⟨c5_banding_amended.2.2.2.2.2.2.2 74.995 (by norm_num) (by norm_num),
   c5_banding_amended.2.2.2.2.2.2.1⟩

/-- The scheduler invariant: exactly one body is active while the flag is
set, none otherwise. -/
theorem runSync_invariant :
    ∀ (es : List SyncEvent) (s : SyncState),
      s.active = (if s.isRunning then 1 else 0) →
      (es.foldl (fun s e => (syncStep s e).1) s).active =
        if (es.foldl (fun s e => (syncStep s e).1) s).isRunning then 1 else 0 := by
  intro es
  induction es with
  | nil => intro s h; exact h
  | cons e es ih =>
    intro s h
    apply ih
    cases e with
    | tick =>
      by_cases hr : s.isRunning <;> simp [syncStep, hr] <;> simp [hr] at h <;> simp [h]
    | finish =>
      by_cases hr : s.isRunning <;> simp [syncStep, hr] <;> simp [hr] at h <;> simp [h]

/-- Claim C9: the periodic allocation sync is single-flight.  Along every
event trace from the idle initial state at most one sync body is ever
executing, and a tick arriving while `isRunning` is set returns
immediately, leaving the state unchanged and starting no work. -/
theorem c9_single_flight :
    (∀ es : List SyncEvent, (runSync es).active ≤ 1) ∧
    (∀ n : ℕ, syncStep ⟨true, n⟩ SyncEvent.tick = (⟨true, n⟩, false)) := by
  constructor
  · intro es
    have h := runSync_invariant es ⟨false, 0⟩ rfl
    unfold runSync
    rw [h]
    split <;> norm_num
  · intro n
    rfl

/-- If no position of the text starts a batch match, the scanner collects
nothing, for any fuel. -/
theorem scanBatchesF_eq_nil :
    ∀ (fuel : ℕ) (l : List Char), (∀ i, matchBatchAt (l.drop i) = none) →
      scanBatchesF fuel l = [] := by
  intro fuel
  induction fuel with
  | zero => intro l _; rfl
  | succ f ih =>
    intro l h
    have h0 : matchBatchAt l = none := by simpa using h 0
    cases l with
    | nil => simp [scanBatchesF, h0]
    | cons c rest =>
      have htail : ∀ i, matchBatchAt (rest.drop i) = none := by
        intro i
        simpa [List.drop_succ_cons] using h (i + 1)
      simp [scanBatchesF, h0, ih rest htail]

/-- Claim C8: parseBatchInfo maps the quoted sheet text to
A 10, B 11, C 11, D 10, maps the empty string to the empty mapping,
and maps every input whose normalised text contains no
letter/separator/digits pattern to the empty mapping (no error). -/
theorem c8_parse_batch_info :
    parseBatchInfo "A= 10, B= 11            C= 11, D=  10" =
      [('A', 10), ('B', 11), ('C', 11), ('D', 10)] ∧
    parseBatchInfo "" = [] ∧
    ∀ s : String,
      (∀ i, i < (normalizeBatchChars s).length →
        matchBatchAt ((normalizeBatchChars s).drop i) = none) →
      parseBatchInfo s = [] := by
  refine ⟨by decide, by decide, ?_⟩
  intro s h
  have hall : ∀ i, matchBatchAt ((normalizeBatchChars s).drop i) = none := by
    intro i
    by_cases hi : i < (normalizeBatchChars s).length
    · exact h i hi
    · rw [List.drop_eq_nil_of_le (le_of_not_lt hi)]
      rfl
  simp only [parseBatchInfo]
  rw [scanBatchesF_eq_nil _ _ hall]
  rfl

/-- Witness for C8 on a concrete pattern-free input. -/
theorem c8_parse_batch_info_witness : parseBatchInfo "hello" = [] :=
  c8_parse_batch_info.2.2 "hello" (by decide)

/-- A student whose attendance query fails makes the whole student fold
fail (with the sole error value of the model). -/
theorem foldlM_defaulters_error (t : ℚ) (ids : Option (List ℕ)) (env : DefaulterEnv)
    {s : DStudent} :
    ∀ (l : List DStudent) (acc : List (ℕ × List DefSubjectStat)), s ∈ l →
      env.attendanceOf s.id = Except.error () →
      l.foldlM (checkDefaultersStep t ids env) acc = Except.error () := by
  intro l
  induction l with
  | nil => intro acc h; simp at h
  | cons a rest ih =>
    intro acc hmem herr
    rw [List.foldlM_cons]
    rcases List.mem_cons.mp hmem with heq | hm
    · subst heq
      have hse : checkDefaultersStep t ids env acc s = Except.error () := by
        simp [checkDefaultersStep, herr]
      rw [hse]
      rfl
    · cases hstep : checkDefaultersStep t ids env acc a with
      | error e =>
        cases e
        rfl
      | ok acc2 =>
        exact ih acc2 hm herr

/-- Claim C10: checkDefaulters never propagates a failure.  Whenever the
body (the contents of its try block) fails, the catch-all returns the
empty list; in particular a failing student query, or a failing
attendance query for any student in the list, yields the empty list. -/
theorem c10_check_defaulters_swallows :
    (∀ (t : ℚ) (ids : Option (List ℕ)) (env : DefaulterEnv) (e : Unit),
      checkDefaultersBody t ids env = Except.error e →
      checkDefaulters t ids env = []) ∧
    (∀ (t : ℚ) (ids : Option (List ℕ)) (env : DefaulterEnv)
      (studs : List DStudent) (s : DStudent),
      env.students = Except.ok studs → s ∈ studs →
      env.attendanceOf s.id = Except.error () →
      checkDefaulters t ids env = []) := by
  constructor
  · intro t ids env e h
    simp [checkDefaulters, h]
  · intro t ids env studs s hst hmem herr
    have hbody : checkDefaultersBody t ids env = Except.error () := by
      unfold checkDefaultersBody
      rw [hst]
      exact foldlM_defaulters_error t ids env studs [] hmem herr
    simp [checkDefaulters, hbody]

/-- Witness for C10: the all-failing environment. -/
theorem c10_check_defaulters_witness :
    checkDefaultersBody 75 none c10Env = Except.error () ∧
    checkDefaulters 75 none c10Env = [] :=
  ⟨rfl, c10_check_defaulters_swallows.1 75 none c10Env () rfl⟩

/-- Claim C2, evaluated at the failing input: the sheet declares no
batch-specific total for the student's batch C (the truthy lookup is
empty), yet the upload overwrites the batch-C allocation's totals with
10 — the division-A figure held in `totalLectures` — instead of leaving
the stored totals 3/3 untouched. -/
theorem c2_allocation_overwritten_eval :
    lookupBatchTruthy c2Si.batchInfo c2Stu.batch = none ∧
    c2Final = [⟨1, SubjType.Practical, "A", some "C", 10, 10⟩] := by
  have hlk : lookupBatchTruthy c2Si.batchInfo c2Stu.batch = none := by
    simp [lookupBatchTruthy, c2Si, c2Stu, List.lookup]
  refine ⟨hlk, ?_⟩
  have hp : processPair "A" none 7 c2Si ⟨20, "U2", some "C"⟩ (SheetCell.num 5)
      SheetCell.empty =
      (c2Si, some ⟨20, 1, SubjType.Practical, none, 10, 5, 50, "A", some "C", 7⟩,
       some (⟨1, SubjType.Practical, "A", "C"⟩, 10)) := by
    simp [processPair, cellToNum, lookupBatchTruthy, computeTotalClasses, derivedTotal,
      jsRound, c2Si, List.lookup]
    norm_num
  have hrun : (runUpload "A" none 7 [c2Stu] ⟨[(4, c2Si)], [], []⟩ [c2Row]).allocUpd =
      [(⟨1, SubjType.Practical, "A", "C"⟩, 10)] := by
    simp [runUpload, processRow, processCols, processOneCol, cellAt, c2Row, c2Stu,
      List.lookup, hp, updateAllocUpd]
  simp [c2Final, hrun, applyAllocUpdates, allocSetFirst, allocMatches, c2Alloc]

/-- Claim C3, evaluated at the failing input: the same two-row sheet
processed in the two row orders gives the batch-C student (id 20) a
totalConducted of 11 in one order — the batch-B total left behind in the
mutated `subjectInfo.totalLectures` — and 5 in the other: row results
are not order-independent. -/
theorem c3_order_dependence_eval :
    c3Db1 = [⟨10, 1, SubjType.Practical, none, 11, 5, 500/11, "A", some "B", 7⟩,
             ⟨20, 1, SubjType.Practical, none, 11, 5, 500/11, "A", some "C", 7⟩] ∧
    c3Db2 = [⟨20, 1, SubjType.Practical, none, 5, 5, 100, "A", some "C", 7⟩,
             ⟨10, 1, SubjType.Practical, none, 11, 5, 500/11, "A", some "B", 7⟩] := by
  have hpx : processPair "A" none 7 c3Si ⟨10, "U1", some "B"⟩ (SheetCell.num 5)
      SheetCell.empty =
      (⟨1, SubjType.Practical, some 11, some [("B", 11)]⟩,
       some ⟨10, 1, SubjType.Practical, none, 11, 5, 500/11, "A", some "B", 7⟩,
       some (⟨1, SubjType.Practical, "A", "B"⟩, 11)) := by
    simp [processPair, cellToNum, lookupBatchTruthy, computeTotalClasses, derivedTotal,
      jsRound, c3Si, List.lookup]
    norm_num
  have hpy1 : processPair "A" none 7 (⟨1, SubjType.Practical, some 11, some [("B", 11)]⟩ :
      SubjectInfo) ⟨20, "U2", some "C"⟩ (SheetCell.num 5) SheetCell.empty =
      (⟨1, SubjType.Practical, some 11, some [("B", 11)]⟩,
       some ⟨20, 1, SubjType.Practical, none, 11, 5, 500/11, "A", some "C", 7⟩,
       some (⟨1, SubjType.Practical, "A", "C"⟩, 11)) := by
    simp [processPair, cellToNum, lookupBatchTruthy, computeTotalClasses, derivedTotal,
      jsRound, List.lookup]
    norm_num
  have hpy0 : processPair "A" none 7 c3Si ⟨20, "U2", some "C"⟩ (SheetCell.num 5)
      SheetCell.empty =
      (c3Si, some ⟨20, 1, SubjType.Practical, none, 5, 5, 100, "A", some "C", 7⟩, none) := by
    simp [processPair, cellToNum, lookupBatchTruthy, computeTotalClasses, derivedTotal,
      jsRound, c3Si, List.lookup]
    norm_num
  constructor
  · simp [c3Db1, runUpload, processRow, processCols, processOneCol, cellAt,
      c3RowX, c3RowY, c3X, c3Y, List.lookup, hpx, hpy1, setSmap, updateAllocUpd,
      applyWrite, keyMatches, setRec]
  · simp [c3Db2, runUpload, processRow, processCols, processOneCol, cellAt,
      c3RowX, c3RowY, c3X, c3Y, List.lookup, hpy0, hpx, setSmap, updateAllocUpd,
      applyWrite, keyMatches, setRec]

/-- Counterexample to claim C6 as stated: an empty attended cell is not
skipped — `row[col] || 0` coerces it to attended 0 and a summary record
is written (here with totalConducted 40 from the sheet total and
totalAttended 0). -/
theorem c6_empty_cell_counterexample :
    (processPair "A" none 7 c6Si c6Stu SheetCell.empty SheetCell.empty).2.1 =
      some ⟨30, 2, SubjType.Theory, none, 40, 0, 0, "A", none, 7⟩ := by
  simp [processPair, cellToNum, lookupBatchTruthy, computeTotalClasses, derivedTotal,
    jsRound, c6Si, c6Stu]
  norm_num

/-- Claim C6 (amended): a (student row, subject column) pair is skipped —
no summary record created, no allocation tracking, no subject-info
mutation — exactly for an attended cell that parses to NaN (a non-empty
non-numeric cell) or to a negative number; an empty attended cell is
instead coerced to 0 and processed. -/
theorem c6_skip_amended :
    (∀ (division : String) (period : Option String) (teacherId : ℕ)
      (si : SubjectInfo) (stu : StudentRec) (pc : SheetCell),
      processPair division period teacherId si stu SheetCell.other pc = (si, none, none)) ∧
    (∀ (division : String) (period : Option String) (teacherId : ℕ)
      (si : SubjectInfo) (stu : StudentRec) (q : ℚ) (pc : SheetCell),
      q < 0 →
      processPair division period teacherId si stu (SheetCell.num q) pc = (si, none, none)) := by
  constructor
  · intro division period teacherId si stu pc
    rfl
  · intro division period teacherId si stu q pc hq
    simp [processPair, cellToNum, hq]

/-- Witness for C6 (amended) at a concrete negative cell. -/
theorem c6_skip_amended_witness :
    (-1 : ℚ) < 0 ∧
    processPair "A" none 7 c6Si c6Stu (SheetCell.num (-1)) SheetCell.empty =
      (c6Si, none, none) :=
  ⟨by norm_num,
   c6_skip_amended.2 "A" none 7 c6Si c6Stu (-1) SheetCell.empty (by norm_num)⟩

/-- Claim C7, evaluated at the failing input: a request carrying a file
whose division field is "E" exits through the division-letter check with
status 400 and the uploaded file NOT deleted, while (for contrast) the
unsupported-extension validation failure on a valid division does delete
it. -/
theorem c7_division_check_leak_eval :
    uploadDivisionSheet (some "E") true FileExt.xlsx ProcOutcome.success =
      { status := 400, fileDeleted := false } ∧
    uploadDivisionSheet (some "A") true FileExt.otherExt ProcOutcome.success =
      { status := 400, fileDeleted := true } := by
  constructor
  · decide
  · decide
